import Mathlib

/-!
Verification development for the vmware2scw migration engine.

Shallow embedding of:
  - the pipeline orchestrator (`MigrationPipeline.run` / `.resume` / `STAGES`
    in `src/test-migration/src/vmware2scw/pipeline/migration.py`), and
  - the Windows guest-image mutation engine
    (`src/vmware2scw/src/vmware2scw/converter/windows_virtio.py`).

Stateful Python code is modelled by explicit state passing; external-tool
invocations are parameterised by their outcomes; fallible code returns
`Except`/`Option`.
-/

namespace Vmware2Scw

/-! ## Generic association-list store

Python dicts threaded through the pipeline (the artifact bag, the guest
file tree, registry hives) are modelled as association lists with
overwrite-on-existing-key update, preserving insertion order as a dict does. -/

/-- Lookup in an association list (first match wins, like a dict). -/
def lookupA {β : Type} (l : List (String × β)) (k : String) : Option β :=
  match l with
  | [] => none
  | (k1, v1) :: rest => if k1 = k then some v1 else lookupA rest k

/-- Dict-style update: overwrite the value at an existing key, else append. -/
def upsert {β : Type} (l : List (String × β)) (k : String) (v : β) :
    List (String × β) :=
  match l with
  | [] => [(k, v)]
  | (k1, v1) :: rest => if k1 = k then (k, v) :: rest else (k1, v1) :: upsert rest k v

/-- How many entries of the association list carry key `k`. -/
def countKey {β : Type} (l : List (String × β)) (k : String) : Nat :=
  (l.map Prod.fst).count k

/-! ## Pipeline data model (pipeline/migration.py) -/

/-- Artifact-bag values: paths, ids, path lists, or structured records
(`vm_info` is a dict dumped from a model). -/
inductive ArtVal where
  | str : String → ArtVal
  | strList : List String → ArtVal
  | info : List (String × String) → ArtVal
deriving DecidableEq

/-- The artifact bag: `state.artifacts`, a dict from string key to value. -/
abbrev Artifacts := List (String × ArtVal)

/-- `MigrationState` (pipeline/state.py via its use in migration.py).
`started_at` is a wall-clock timestamp irrelevant to control flow and is
omitted. -/
structure MigrationState where
  migrationId : String
  vmName : String
  targetType : String
  zone : String
  currentStage : String
  completedStages : List String
  artifacts : Artifacts
  error : Option String
deriving DecidableEq

/-- `VMMigrationPlan` (the fields `migration.py` reads).  `resume`
reconstructs a plan from persisted state without passing
`skip_validation`, so the field's default `false` applies on resume. -/
structure VMMigrationPlan where
  vmName : String
  targetType : String
  zone : String
  skipValidation : Bool := false
deriving DecidableEq

/-- `MigrationPipeline.STAGES` — the fixed stage registry, in source order. -/
def STAGES : List String :=
  ["validate", "snapshot", "export", "convert", "clean_tools", "inject_virtio",
   "fix_bootloader", "ensure_uefi", "fix_network", "upload_s3", "import_scw",
   "verify", "cleanup"]

/-- A stage execution oracle: the observable effect of
`_execute_stage(stage, plan, state)` on the artifact bag — handlers mutate
only `state.artifacts` and signal failure by raising (`Except.error`). -/
abbrev StageExec := String → Artifacts → Except String Artifacts

/-- Result of driving the stage loop: final state, the handlers invoked in
order, every state persisted by `state_store.save` in order, and the failing
stage if one raised. -/
structure LoopResult where
  finalState : MigrationState
  invoked : List String
  saved : List MigrationState
  failedStage : Option String
deriving DecidableEq

/-- The shared stage loop of `run` (lines 107-132) and `resume`
(lines 175-199): set `current_stage`, persist, execute; on success append to
`completed_stages` and persist; on failure persist the error and stop. -/
def execLoop (exec : StageExec) : List String → MigrationState → LoopResult
  | [], st => { finalState := st, invoked := [], saved := [], failedStage := none }
  | s :: rest, st =>
    let st1 : MigrationState := { st with currentStage := s }
    match exec s st1.artifacts with
    | .ok arts =>
      let st2 : MigrationState :=
        { st1 with artifacts := arts, completedStages := st1.completedStages ++ [s] }
      let r := execLoop exec rest st2
      { finalState := r.finalState, invoked := s :: r.invoked,
        saved := st1 :: st2 :: r.saved, failedStage := r.failedStage }
    | .error msg =>
      let st2 : MigrationState := { st1 with error := some msg }
      { finalState := st2, invoked := [s], saved := [st1, st2],
        failedStage := some s }

/-- The stage list `run` iterates: `STAGES`, minus `validate` when the plan
sets `skip_validation` (lines 103-105). -/
def stagesToRun (plan : VMMigrationPlan) : List String :=
  if plan.skipValidation then STAGES.filter (fun s => s ≠ "validate") else STAGES

/-- Fresh state built at the top of `run` (lines 88-97). -/
def initialState (mid : String) (plan : VMMigrationPlan) : MigrationState :=
  { migrationId := mid, vmName := plan.vmName, targetType := plan.targetType,
    zone := plan.zone, currentStage := "", completedStages := [],
    artifacts := [], error := none }

/-- `MigrationPipeline.run` (the uuid draw is passed in as `mid`): initial
save, then the stage loop over `stagesToRun`. -/
def runPipeline (exec : StageExec) (plan : VMMigrationPlan) (mid : String) :
    LoopResult :=
  let st0 := initialState mid plan
  let r := execLoop exec (stagesToRun plan) st0
  { r with saved := st0 :: r.saved }

/-- `MigrationPipeline.resume` (lines 147-210): load, not-found error,
remaining := STAGES minus `completed_stages`, immediate success when nothing
remains, else clear the error and run the loop. -/
def resumePipeline (exec : StageExec) (load : String → Option MigrationState)
    (mid : String) : Except String LoopResult :=
  match load mid with
  | none => .error ("Migration not found: " ++ mid)
  | some st =>
    let remaining := STAGES.filter (fun s => decide (s ∉ st.completedStages))
    match remaining with
    | [] => .ok { finalState := st, invoked := [], saved := [], failedStage := none }
    | s :: rest =>
      let st1 : MigrationState := { st with error := none }
      .ok (execLoop exec (s :: rest) st1)

/-- The states a `resume` call reaches: the final state together with every
state it persisted.  Empty for a not-found error. -/
def resumeStates (e : Except String LoopResult) : List MigrationState :=
  match e with
  | .ok r => r.finalState :: r.saved
  | .error _ => []

/-! ## Concrete fixtures for witnesses and counterexamples -/

/-- A stage oracle where every handler succeeds without touching the bag. -/
def execAlwaysOk : StageExec := fun _ a => .ok a

/-- Persisted state of a run that failed at `export`, for the C1 witness. -/
def stateC1 : MigrationState :=
  { migrationId := "m1", vmName := "vm", targetType := "DEV1-S",
    zone := "fr-par-1", currentStage := "export",
    completedStages := ["validate", "snapshot"], artifacts := [],
    error := some "export blew up" }

/-- State store holding only `stateC1`. -/
def loadC1 : String → Option MigrationState := fun _ => some stateC1

/-- Persisted state of a fully completed migration, for the C8 witness. -/
def stateC8 : MigrationState :=
  { migrationId := "m2", vmName := "vm", targetType := "DEV1-S",
    zone := "fr-par-1", currentStage := "cleanup", completedStages := STAGES,
    artifacts := [("scaleway_image_id", ArtVal.str "img-42")], error := none }

/-- State store holding only `stateC8`. -/
def loadC8 : String → Option MigrationState := fun _ => some stateC8

/-- Stage oracle that fails exactly at `convert`, as an original run of the
C2 counterexample would. -/
def execFailConvert : StageExec :=
  fun s a => if s = "convert" then .error "boom" else .ok a

/-- A plan with `skip_validation = true`, for the C2 counterexample. -/
def planSkipC2 : VMMigrationPlan :=
  { vmName := "vm", targetType := "DEV1-S", zone := "fr-par-1",
    skipValidation := true }

/-- Final persisted state of `run(planSkipC2)` failing at `convert`:
`completed_stages = ["snapshot", "export"]`. -/
def crashedStateC2 : MigrationState :=
  (runPipeline execFailConvert planSkipC2 "m1").finalState

/-- `completed_stages` after resuming `crashedStateC2` with every handler
succeeding. -/
def resumedCompletedC2 : List String :=
  match resumePipeline execAlwaysOk (fun _ => some crashedStateC2) "m1" with
  | .ok r => r.finalState.completedStages
  | .error _ => []

/-- Final state of resuming `stateC1` (a no-skip run failed at `export`,
prefix `["validate", "snapshot"]` persisted) with all handlers succeeding. -/
def resumedFinalC1 : MigrationState :=
  match resumePipeline execAlwaysOk loadC1 "m1" with
  | .ok r => r.finalState
  | .error _ => stateC1

/-! ## Individual stage handlers (migration.py stage implementations) -/

/-- `state.artifacts.get(key, [])` for a path-list artifact.  The bag
discipline of the pipeline stores these keys only as lists. -/
def getStrList (a : Artifacts) (k : String) : List String :=
  match lookupA a k with
  | some (ArtVal.strList l) => l
  | _ => []

/-- Observable guest/disk side effect of a stage handler. -/
inductive StageAction where
  | cleanDisk (path : String)
deriving DecidableEq

/-- `_stage_clean_tools` (lines 309-336): with no `qcow2_paths` artifact it
logs a warning and returns; otherwise it cleans only the boot disk (the
first path).  The handler never writes to the artifact bag. -/
def stageCleanTools (arts : Artifacts) :
    (Except String Artifacts) × List StageAction :=
  match getStrList arts "qcow2_paths" with
  | [] => (.ok arts, [])
  | boot :: _ => (.ok arts, [StageAction.cleanDisk boot])

/-- `_stage_import_scw` (lines 714-759), success path parameterised by the
ids returned by the Scaleway API.  `state.artifacts["s3_bucket"]` is plain
indexing — a KeyError propagates when the key is absent — and an absent or
empty `s3_keys` list raises `RuntimeError` before any API call. -/
def stageImportScw (snapshotId imageId : String) (arts : Artifacts) :
    Except String Artifacts :=
  match lookupA arts "s3_bucket" with
  | none => .error "KeyError: s3_bucket"
  | some _ =>
    match getStrList arts "s3_keys" with
    | [] => .error "No S3 keys found - upload stage may have failed"
    | _ :: _ =>
      .ok (upsert (upsert arts "scaleway_snapshot_id" (ArtVal.str snapshotId))
        "scaleway_image_id" (ArtVal.str imageId))

/-- `Path.with_suffix` as `_stage_convert` uses it: replace the extension
after the last dot, appending when the path has no dot. -/
def withSuffix (p : String) (ext : String) : String :=
  let cs := p.data
  let stem := if cs.contains '.'
    then (((cs.reverse).dropWhile (fun c => c ≠ '.')).drop 1).reverse
    else cs
  String.mk (stem ++ ext.data)

/-- `_stage_convert` (lines 481-513) on its success path, over an abstract
filesystem given as the list of existing paths.  Each VMDK maps to its
`.qcow2` sibling; conversion is skipped when the target already exists and
passes `DiskConverter.check` — either way the target exists afterwards,
which is all the path-level model tracks — then `artifacts["qcow2_paths"]`
is set and every source VMDK still on disk is deleted. -/
def stageConvert (fs : List String) (arts : Artifacts) :
    List String × Artifacts :=
  let vmdks := getStrList arts "vmdk_paths"
  let qcow2s := vmdks.map (fun v => withSuffix v ".qcow2")
  let fs1 := qcow2s.foldl (fun acc q => if acc.contains q then acc else q :: acc) fs
  let arts1 := upsert arts "qcow2_paths" (ArtVal.strList qcow2s)
  let fs2 := fs1.filter (fun p => !(vmdks.contains p))
  (fs2, arts1)

/-- `_stage_fix_network` (lines 670-678): the body is a single log line —
network adaptation already happened in `fix_bootloader`. -/
def stageFixNetwork (plan : VMMigrationPlan) (st : MigrationState) :
    (Except String MigrationState) × List StageAction :=
  (.ok st, [])

/-- Artifact bag with VMDKs exported but nothing converted yet
(no `qcow2_paths` key), for the C7 witness. -/
def artsNoQcow : Artifacts :=
  [("vmdk_paths", ArtVal.strList ["/work/m1/disk1.vmdk"])]

/-- Artifact bag whose upload stage produced no keys, for the C7 witness. -/
def artsNoKeys : Artifacts :=
  [("s3_bucket", ArtVal.str "vmware2scw-bkt"), ("s3_keys", ArtVal.strList [])]

/-- Artifact bag after export of two disks, for the C9 witness. -/
def artsTwoVmdks : Artifacts :=
  [("vm_info", ArtVal.info [("guest_os", "ubuntu64Guest")]),
   ("vmdk_paths", ArtVal.strList ["/work/m1/disk1.vmdk", "/work/m1/disk2.vmdk"])]

/-! ## Registry value encoding (converter/windows_virtio.py)

Python text is modelled as its sequence of code points (`List Nat`).
`str.encode("utf-16-le")` rejects lone surrogates, so the encodable texts
are exactly the sequences of Unicode scalar values. -/

/-- A Unicode scalar value: a code point outside the surrogate block. -/
def ScalarValue (c : Nat) : Prop :=
  c < 0x110000 ∧ (c < 0xD800 ∨ 0xE000 ≤ c)

instance (c : Nat) : Decidable (ScalarValue c) :=
  inferInstanceAs (Decidable (c < 0x110000 ∧ (c < 0xD800 ∨ 0xE000 ≤ c)))

/-- UTF-16 code units of one scalar value: itself in the BMP, else a
surrogate pair. -/
def utf16Units (c : Nat) : List Nat :=
  if c < 0x10000 then [c]
  else [0xD800 + (c - 0x10000) / 0x400, 0xDC00 + (c - 0x10000) % 0x400]

/-- Concatenation of a list of lists. -/
def concatAll {α : Type} : List (List α) → List α
  | [] => []
  | l :: ls => l ++ concatAll ls

/-- UTF-16 code units of a text. -/
def utf16Of (s : List Nat) : List Nat := concatAll (s.map utf16Units)

/-- `s.encode("utf-16-le")`: every code unit as two bytes, low byte first. -/
def utf16leBytes (s : List Nat) : List Nat :=
  concatAll ((utf16Of s).map (fun u => [u % 256, u / 256]))

/-- Lowercase hex digit, as Python `format(n, "x")` produces. -/
def hexDigitChar (n : Nat) : Char :=
  match n with
  | 0 => '0' | 1 => '1' | 2 => '2' | 3 => '3' | 4 => '4'
  | 5 => '5' | 6 => '6' | 7 => '7' | 8 => '8' | 9 => '9'
  | 10 => 'a' | 11 => 'b' | 12 => 'c' | 13 => 'd' | 14 => 'e'
  | _ => 'f'

/-- The two characters of `f"{b:02x}"` for a byte. -/
def byteHexChars (b : Nat) : List Char :=
  [hexDigitChar (b / 16), hexDigitChar (b % 16)]

/-- `",".join(f"{b:02x}" for b in raw)`. -/
def renderBytes : List Nat → List Char
  | [] => []
  | [b] => byteHexChars b
  | b :: b2 :: rest => byteHexChars b ++ ',' :: renderBytes (b2 :: rest)

/-- `_str_to_reg_expand_sz` (windows_virtio.py lines 75-78): the text as
null-terminated UTF-16-LE bytes, rendered `hex(2):` comma-separated. -/
def strToRegExpandSz (s : List Nat) : String :=
  String.mk ("hex(2):".data ++ renderBytes (utf16leBytes s ++ [0, 0]))

/-- `_str_to_reg_multi_sz` (lines 81-87): each element null-terminated,
concatenated, an extra terminator appended, rendered `hex(7):`. -/
def strToRegMultiSz (ls : List (List Nat)) : String :=
  String.mk ("hex(7):".data ++
    renderBytes (concatAll (ls.map (fun s => utf16leBytes s ++ [0, 0])) ++ [0, 0]))

/-- Value of a lowercase hex digit character. -/
def hexVal (c : Char) : Option Nat :=
  if '0' ≤ c ∧ c ≤ '9' then some (c.toNat - '0'.toNat)
  else if 'a' ≤ c ∧ c ≤ 'f' then some (c.toNat - 'a'.toNat + 10)
  else none

/-- Parse a nonempty comma-separated sequence of two-digit hex bytes. -/
def parseBytes : List Char → Option (List Nat)
  | [] => none
  | [_] => none
  | c1 :: c2 :: rest =>
    match hexVal c1, hexVal c2 with
    | some hi, some lo =>
      match rest with
      | [] => some [hi * 16 + lo]
      | ',' :: rest2 => (parseBytes rest2).map (fun bs => (hi * 16 + lo) :: bs)
      | _ => none
    | _, _ => none

/-- Strip an expected leading tag from a character list. -/
def dropTag : List Char → List Char → Option (List Char)
  | [], t => some t
  | _ :: _, [] => none
  | p :: ps, c :: cs => if c = p then dropTag ps cs else none

/-- Remove the trailing UTF-16 null terminator (the final two zero bytes). -/
def stripNullTerminator (bs : List Nat) : Option (List Nat) :=
  if bs.length < 2 then none
  else if bs.getLast? = some 0 ∧ bs.dropLast.getLast? = some 0
  then some bs.dropLast.dropLast
  else none

/-- Rebuild code units from little-endian byte pairs. -/
def bytesToUnits : List Nat → Option (List Nat)
  | [] => some []
  | [_] => none
  | lo :: hi :: rest => (bytesToUnits rest).map (fun us => (lo + 256 * hi) :: us)

/-- UTF-16 decoding of a code unit sequence: BMP units stand alone, a high
surrogate must be followed by a low surrogate, a lone low surrogate is
invalid. -/
def utf16Decode : List Nat → Option (List Nat)
  | [] => some []
  | u :: rest =>
    if u < 0xD800 ∨ 0xE000 ≤ u then
      (utf16Decode rest).map (fun cs => u :: cs)
    else if u < 0xDC00 then
      match rest with
      | [] => none
      | u2 :: rest2 =>
        if 0xDC00 ≤ u2 ∧ u2 < 0xE000 then
          (utf16Decode rest2).map
            (fun cs => (0x10000 + (u - 0xD800) * 0x400 + (u2 - 0xDC00)) :: cs)
        else none
    else none

/-- Modelled from the spec: the repository ships only the encoder, and the
round-trip sentence defines decoding as stripping the `hex(2):` tag,
parsing the comma-separated hex bytes, dropping the null terminator and
decoding UTF-16-LE.  This is that decoder. -/
def regExpandSzDecode (t : String) : Option (List Nat) :=
  (dropTag "hex(2):".data t.data).bind (fun body =>
    (parseBytes body).bind (fun bytes =>
      (stripNullTerminator bytes).bind (fun payload =>
        (bytesToUnits payload).bind utf16Decode)))

/-! ## Registry merge with layered fallback (`_merge_reg_file`) -/

/-- The external invocations `_merge_reg_file` can make. -/
inductive MergeAction where
  | virtWinRegMerge
  | hiveDownload
  | bulkHivexMerge
  | sectionHivexMerge (i : Nat)
  | hiveUpload
deriving DecidableEq

/-- Outcomes of the external tools: `virt-win-reg --merge`, the guestfish
hive download, the bulk `hivexregedit --merge`, each per-section merge
(indexed by the position of the section in the split file), and the
guestfish hive upload. -/
structure MergeOutcomes where
  virtWinRegOk : Bool
  downloadOk : Bool
  bulkOk : Bool
  sectionOk : Nat → Bool
  uploadOk : Bool

/-- `str.strip()`: drop leading and trailing whitespace characters. -/
def stripChars (cs : List Char) : List Char :=
  ((cs.dropWhile Char.isWhitespace).reverse.dropWhile Char.isWhitespace).reverse

/-- The split loop skips parts that are empty once stripped or do not open
a key (`if not section or not section.startswith("[")`, after
`section = section.strip()`). -/
def sectionValid (s : String) : Bool :=
  match stripChars s.data with
  | [] => false
  | c :: _ => c = '['

/-- `_merge_reg_file` (lines 239-280), as a function of the external-tool
outcomes and of the reg file already split into its sections (`re.split`
on a newline followed by an opening bracket).  Returns the raise/return
outcome and the trace of invocations.  The guestfish download and upload
use `_run` with its default `check=True` and hence raise on failure; every
merge invocation passes `check=False`, so a merge failure is only logged:
`sectionOk` never influences the result, and the failing bulk merge only
selects the per-section path. -/
def mergeRegFile (o : MergeOutcomes) (sections : List String) :
    Except String Unit × List MergeAction :=
  if o.virtWinRegOk then
    (.ok (), [MergeAction.virtWinRegMerge])
  else if !o.downloadOk then
    (.error "guestfish download failed",
     [MergeAction.virtWinRegMerge, MergeAction.hiveDownload])
  else
    let uploadRes : Except String Unit :=
      if o.uploadOk then .ok () else .error "guestfish upload failed"
    if o.bulkOk then
      (uploadRes,
       [MergeAction.virtWinRegMerge, MergeAction.hiveDownload,
        MergeAction.bulkHivexMerge, MergeAction.hiveUpload])
    else
      let attempts := (sections.enum.filter (fun q => sectionValid q.2)).map
        (fun q => MergeAction.sectionHivexMerge q.1)
      (uploadRes,
       [MergeAction.virtWinRegMerge, MergeAction.hiveDownload,
        MergeAction.bulkHivexMerge] ++ attempts ++ [MergeAction.hiveUpload])

/-- Outcome fixture for the C5 witness: `virt-win-reg` fails, the hive
downloads, the bulk merge fails, section 1 of the split also fails, and
the upload succeeds. -/
def mergeOutcomesW : MergeOutcomes :=
  { virtWinRegOk := false, downloadOk := true, bulkOk := false,
    sectionOk := fun i => decide (i ≠ 1), uploadOk := true }

/-- Split reg file for the C5 witness: two key sections around one part
the split loop skips. -/
def mergeSectionsW : List String :=
  ["[HKEY_LOCAL_MACHINE\\SYSTEM\\ControlSet001\\Services\\viostor]",
   "stray text", "[HKEY_LOCAL_MACHINE\\SYSTEM\\ControlSet001\\Services\\viostor\\Parameters]"]

/-! ## Guest image mutation engine (`ensure_all_virtio_drivers`)

The guest configuration store is the SYSTEM hive (keys to value lists) plus
the guest file tree, both association lists with dict semantics.  A
successful registry merge applies each `.reg` section to the hive; file
contents are denoted symbolically.  External extraction from the
virtio-win ISO is the `extracted` parameter (driver name to package file
names), and the interface GUIDs `_get_interface_guids` reads offline are
the `guids` parameter. -/

/-- A registry value as it appears in the generated `.reg` text: a
`dword:`, a quoted literal string, or a rendered `hex(...)` byte string. -/
inductive RegData where
  | dword : Nat → RegData
  | litStr : String → RegData
  | raw : String → RegData
deriving DecidableEq

/-- The values of one `[key]` section. -/
abbrev RegValues := List (String × RegData)

/-- The offline SYSTEM hive: key path to values. -/
abbrev Hive := List (String × RegValues)

/-- One entry of `DRIVER_DEFS` (windows_virtio.py lines 40-59).
`Start`/`Type` are Lean keywords, hence `startVal`/`typeVal`. -/
structure DriverDef where
  group : String
  imagePath : String
  startVal : Nat
  typeVal : Nat
  errorControl : Nat
  tag : Option Nat
  isoDir : String
deriving DecidableEq

def viostorDef : DriverDef :=
  { group := "SCSI miniport"
    imagePath := "system32\\drivers\\viostor.sys"
    startVal := 0
    typeVal := 1
    errorControl := 1
    tag := some 0x40
    isoDir := "viostor" }

def vioscsiDef : DriverDef :=
  { group := "SCSI miniport"
    imagePath := "system32\\drivers\\vioscsi.sys"
    startVal := 0
    typeVal := 1
    errorControl := 1
    tag := some 0x41
    isoDir := "vioscsi" }

def netkvmDef : DriverDef :=
  { group := "NDIS"
    imagePath := "system32\\drivers\\netkvm.sys"
    startVal := 0
    typeVal := 1
    errorControl := 1
    tag := none
    isoDir := "NetKVM" }

/-- `DRIVER_DEFS`: the compiled-in driver catalogue. -/
def DRIVER_DEFS : List (String × DriverDef) :=
  [("viostor", viostorDef), ("vioscsi", vioscsiDef), ("netkvm", netkvmDef)]

/-- Code points of a Lean string, for the encoders. -/
def strCodes (s : String) : List Nat := s.data.map Char.toNat

/-- `HKEY_LOCAL_MACHINE\SYSTEM\ControlSet001\Services\{drv}`. -/
def serviceKey (drv : String) : String :=
  "HKEY_LOCAL_MACHINE\\SYSTEM\\ControlSet001\\Services\\" ++ drv

/-- The values `_build_driver_reg` writes under the service key. -/
def serviceValues (d : DriverDef) : RegValues :=
  [("Group", RegData.litStr d.group),
   ("ImagePath", RegData.raw (strToRegExpandSz (strCodes d.imagePath))),
   ("ErrorControl", RegData.dword d.errorControl),
   ("Start", RegData.dword d.startVal),
   ("Type", RegData.dword d.typeVal)] ++
  (match d.tag with
   | some t => [("Tag", RegData.dword t)]
   | none => [])

/-- The four sections `_build_driver_reg` emits per driver, parents before
children (the merge tool needs ancestors to exist first). -/
def driverSections (drv : String) (d : DriverDef) : List (String × RegValues) :=
  [(serviceKey drv, serviceValues d),
   (serviceKey drv ++ "\\Parameters", []),
   (serviceKey drv ++ "\\Parameters\\PnpInterface", [("5", RegData.dword 1)]),
   (serviceKey drv ++ "\\Enum",
    [("Count", RegData.dword 0), ("NextInstance", RegData.dword 0)])]

/-- `_build_driver_reg` (lines 181-218): Services sections for every
driver to register, in `sorted(...)` order, for `ControlSet001`. -/
def buildDriverRegSections (names : List String) : List (String × RegValues) :=
  concatAll ((List.insertionSort (fun a b => a ≤ b) names).map (fun drv =>
    match lookupA DRIVER_DEFS drv with
    | some d => driverSections drv d
    | none => []))

/-- `...\Services\Tcpip\Parameters\Interfaces\{guid}`. -/
def tcpipInterfaceKey (guid : String) : String :=
  "HKEY_LOCAL_MACHINE\\SYSTEM\\ControlSet001\\Services\\Tcpip\\Parameters\\Interfaces\\"
    ++ guid

/-- The DHCP-forcing values `_build_dhcp_reg` writes per interface. -/
def dhcpValues : RegValues :=
  [("EnableDHCP", RegData.dword 1),
   ("IPAddress", RegData.raw (strToRegMultiSz [strCodes "0.0.0.0"])),
   ("SubnetMask", RegData.raw (strToRegMultiSz [strCodes "0.0.0.0"])),
   ("DefaultGateway", RegData.raw (strToRegMultiSz [])),
   ("NameServer", RegData.litStr "")]

/-- `_build_dhcp_reg` (lines 221-236). -/
def buildDhcpSections (guids : List String) : List (String × RegValues) :=
  guids.map (fun g => (tcpipInterfaceKey g, dhcpValues))

/-- Apply one merged `.reg` section to the hive: create the key or merge
the values into the existing ones, name by name. -/
def applySection (h : Hive) (sec : String × RegValues) : Hive :=
  match lookupA h sec.1 with
  | none => upsert h sec.1 sec.2
  | some old =>
    upsert h sec.1 (sec.2.foldl (fun acc p => upsert acc p.1 p.2) old)

/-- The effect of a successful registry merge: sections applied in order. -/
def applySections (h : Hive) (secs : List (String × RegValues)) : Hive :=
  secs.foldl applySection h

/-- Guest file contents, denoted symbolically. -/
inductive FileContent where
  | sysFile (drv : String)
  | pkgFile (drv fname : String)
  | firstbootScript
  | other (tag : String)
deriving DecidableEq

/-- The guest configuration store: file tree plus SYSTEM hive. -/
structure Guest where
  files : List (String × FileContent)
  hive : Hive
deriving DecidableEq

/-- `/Windows/System32/drivers/{drv}.sys`. -/
def sysPath (drv : String) : String :=
  "/Windows/System32/drivers/" ++ drv ++ ".sys"

/-- The single fixed firstboot script location
(`_inject_pnputil_firstboot`, lines 360-373). -/
def firstbootPath : String :=
  "/Program Files/Guestfs/Firstboot/scripts/0000-install-virtio-drivers.bat"

/-- `/Drivers/{drv}/{fname}`, the staging location of `_stage_driver_dirs`. -/
def pkgPath (drv fname : String) : String :=
  "/Drivers/" ++ drv ++ "/" ++ fname

/-- Sequential dict writes, the shape of every upload loop. -/
def writeAll {β : Type} (l : List (String × β)) (ws : List (String × β)) :
    List (String × β) :=
  ws.foldl (fun acc w => upsert acc w.1 w.2) l

/-- `_check_existing_drivers` (lines 165-176): the catalogue drivers whose
`.sys` file exists in the guest. -/
def checkExistingDrivers (g : Guest) : List String :=
  (DRIVER_DEFS.map Prod.fst).filter (fun d => (lookupA g.files (sysPath d)).isSome)

/-- `ensure_all_virtio_drivers` (lines 378-458) on its success path, as a
transformer of the guest store.  Step 2 (ISO extraction) is the
`extracted` parameter; upload loops are sequences of dict writes. -/
def ensureAllVirtioDrivers (extracted : List (String × List String))
    (guids : List String) (g : Guest) : Guest :=
  -- Step 1: check existing .sys files
  let existing := checkExistingDrivers g
  let missing := (DRIVER_DEFS.map Prod.fst).filter (fun d => decide (d ∉ existing))
  -- Step 3: upload missing .sys files (skipping drivers not extracted)
  let uploads := missing.filter (fun d => (lookupA extracted d).isSome)
  let files1 := writeAll g.files
    (uploads.map (fun d => (sysPath d, FileContent.sysFile d)))
  let registered := existing ++ uploads
  -- Step 4: register Services entries in the hive
  let hive1 := applySections g.hive (buildDriverRegSections registered)
  -- Step 5: stage every extracted package directory under /Drivers
  let files2 := writeAll files1
    (concatAll (extracted.map (fun pr =>
      pr.2.map (fun fn => (pkgPath pr.1 fn, FileContent.pkgFile pr.1 fn)))))
  -- Step 6: inject the firstboot script at its fixed path
  let files3 := upsert files2 firstbootPath FileContent.firstbootScript
  -- Step 7: force DHCP on the discovered interfaces
  let hive2 := applySections hive1 (buildDhcpSections guids)
  { files := files3, hive := hive2 }

/-- Extraction fixture for the C6 witness: all three driver packages. -/
def extractedW : List (String × List String) :=
  [("viostor", ["viostor.sys", "viostor.inf", "viostor.cat"]),
   ("vioscsi", ["vioscsi.sys", "vioscsi.inf", "vioscsi.cat"]),
   ("netkvm", ["netkvm.sys", "netkvm.inf", "netkvm.cat"])]

/-- A fresh guest with one unrelated file and an empty hive, for the C6
witness. -/
def guestW : Guest :=
  { files := [("/Windows/System32/config/SYSTEM", FileContent.other "hive")]
    hive := [] }

end Vmware2Scw

namespace Vmware2Scw

/-! ## Helper lemmas about the stage loop -/

theorem execLoop_invoked_all_ok (exec : StageExec)
    (hok : ∀ s a, ∃ a2, exec s a = .ok a2) :
    ∀ (stages : List String) (st : MigrationState),
      (execLoop exec stages st).invoked = stages := by
  intro stages
  induction stages with
  | nil => intro st; rfl
  | cons s rest ih =>
    intro st
    obtain ⟨a2, ha⟩ := hok s { st with currentStage := s }.artifacts
    simp only [execLoop, ha]
    simp [ih]

theorem execLoop_invoked_subset (exec : StageExec) :
    ∀ (stages : List String) (st : MigrationState),
      ∀ s ∈ (execLoop exec stages st).invoked, s ∈ stages := by
  intro stages
  induction stages with
  | nil => intro st s hs; simp [execLoop] at hs
  | cons s0 rest ih =>
    intro st s hs
    simp only [execLoop] at hs
    cases hexec : exec s0 { st with currentStage := s0 }.artifacts with
    | ok arts =>
      rw [hexec] at hs
      simp only [List.mem_cons] at hs
      rcases hs with h | h
      · simp [h]
      · exact List.mem_cons_of_mem _ (ih _ s h)
    | error msg =>
      rw [hexec] at hs
      simp only [List.mem_singleton] at hs
      simp [hs]

/-! ## Claims about the orchestrator -/

/-- C3: in the pipeline's declared stage sequence `MigrationPipeline.STAGES`,
the stage `convert` appears strictly before `clean_tools`, and the stage
`fix_bootloader` appears strictly before `ensure_uefi`. -/
theorem stage_ordering_constraints :
    STAGES.indexOf "convert" < STAGES.indexOf "clean_tools" ∧
    STAGES.indexOf "fix_bootloader" < STAGES.indexOf "ensure_uefi" := by
  decide

/-- C1: for a persisted migration whose state records completed stages `C`,
`resume` executes exactly the registry stages not in `C`, in registry order
(when every remaining handler succeeds), and never invokes the handler of
any stage in `C`. -/
theorem resume_runs_exactly_remaining (exec : StageExec)
    (load : String → Option MigrationState) (mid : String) (st : MigrationState)
    (hload : load mid = some st)
    (hok : ∀ s a, ∃ a2, exec s a = .ok a2) :
    ∃ r, resumePipeline exec load mid = .ok r ∧
      r.invoked = STAGES.filter (fun s => decide (s ∉ st.completedStages)) ∧
      ∀ s ∈ st.completedStages, s ∉ r.invoked := by
  unfold resumePipeline
  rw [hload]
  simp only
  cases hrem : STAGES.filter (fun s => decide (s ∉ st.completedStages)) with
  | nil =>
    exact ⟨_, rfl, by simp, by simp⟩
  | cons s0 rest =>
    refine ⟨_, rfl, ?_, ?_⟩
    · rw [execLoop_invoked_all_ok exec hok]
    · intro s hs hmem
      have hsub := execLoop_invoked_subset exec (s0 :: rest)
        { st with error := none } s hmem
      rw [← hrem] at hsub
      have := (List.mem_filter.mp hsub).2
      simp only [decide_eq_true_eq] at this
      exact this hs

/-- Witness for C1: resuming after a failure at `export` (with `validate`
and `snapshot` persisted as completed) invokes exactly the eleven later
registry stages. -/
theorem resume_runs_exactly_remaining_witness :
    Except.map LoopResult.invoked (resumePipeline execAlwaysOk loadC1 "m1") =
      .ok ["export", "convert", "clean_tools", "inject_virtio",
           "fix_bootloader", "ensure_uefi", "fix_network", "upload_s3",
           "import_scw", "verify", "cleanup"] := by
  obtain ⟨r, hr, hinv, _⟩ :=
    resume_runs_exactly_remaining execAlwaysOk loadC1 "m1" stateC1 rfl
      (fun _ a => ⟨a, rfl⟩)
  rw [hr, Except.map, hinv]
  exact congrArg Except.ok (by decide)

/-- C8: `resume` on a persisted migration whose `completed_stages` already
contains every registry stage returns a success result immediately, invokes
no stage handler, and persists (mutates) nothing. -/
theorem resume_complete_immediate (exec : StageExec)
    (load : String → Option MigrationState) (mid : String) (st : MigrationState)
    (hload : load mid = some st)
    (hall : ∀ s ∈ STAGES, s ∈ st.completedStages) :
    resumePipeline exec load mid =
      .ok { finalState := st, invoked := [], saved := [], failedStage := none } := by
  unfold resumePipeline
  rw [hload]
  have hrem : STAGES.filter (fun s => decide (s ∉ st.completedStages)) = [] := by
    rw [List.filter_eq_nil_iff]
    intro a ha
    simp [hall a ha]
  simp only [hrem]

/-- Witness for C8: resuming `stateC8`, whose completed list is the whole
registry, yields the immediate success result untouched. -/
theorem resume_complete_immediate_witness :
    resumePipeline execAlwaysOk loadC8 "m2" =
      .ok { finalState := stateC8, invoked := [], saved := [],
            failedStage := none } :=
  resume_complete_immediate execAlwaysOk loadC8 "m2" stateC8 rfl
    (fun _ hs => hs)

/-! ## The completed-stages ordering invariant (C2) -/

theorem execLoop_completed_sublist (exec : StageExec) (master : List String) :
    ∀ (stages : List String) (st : MigrationState),
      (st.completedStages ++ stages).Sublist master →
      (execLoop exec stages st).finalState.completedStages.Sublist master ∧
      ∀ st2 ∈ (execLoop exec stages st).saved,
        st2.completedStages.Sublist master := by
  intro stages
  induction stages with
  | nil =>
    intro st h
    rw [List.append_nil] at h
    exact ⟨h, by simp [execLoop]⟩
  | cons s rest ih =>
    intro st h
    have hst : st.completedStages.Sublist master :=
      (List.sublist_append_left st.completedStages (s :: rest)).trans h
    have hstep : ((st.completedStages ++ [s]) ++ rest).Sublist master := by
      rw [List.append_assoc]
      exact h
    cases hexec : exec s { st with currentStage := s }.artifacts with
    | ok arts =>
      simp only [execLoop, hexec]
      have hrec := ih
        { st with
          currentStage := s
          artifacts := arts
          completedStages := st.completedStages ++ [s] } hstep
      refine ⟨hrec.1, ?_⟩
      intro st2 hmem
      simp only [List.mem_cons] at hmem
      rcases hmem with rfl | rfl | hmem
      · exact hst
      · exact ((List.sublist_append_left _ rest).trans hstep)
      · exact hrec.2 st2 hmem
    | error msg =>
      simp only [execLoop, hexec]
      refine ⟨hst, ?_⟩
      intro st2 hmem
      simp only [List.mem_cons, List.not_mem_nil, or_false] at hmem
      rcases hmem with rfl | rfl
      · exact hst
      · exact hst

theorem filter_not_mem_append (l1 l2 : List String) (h : (l1 ++ l2).Nodup) :
    (l1 ++ l2).filter (fun s => decide (s ∉ l1)) = l2 := by
  rw [List.filter_append]
  have hdisj : l1.Disjoint l2 := (List.nodup_append.mp h).2.2
  have h1 : l1.filter (fun s => decide (s ∉ l1)) = [] := by
    rw [List.filter_eq_nil_iff]
    intro a ha
    simp [ha]
  have h2 : l2.filter (fun s => decide (s ∉ l1)) = l2 := by
    rw [List.filter_eq_self]
    intro a ha
    simp only [decide_eq_true_eq]
    exact fun hmem => hdisj hmem ha
  rw [h1, h2, List.nil_append]

theorem filter_not_mem_take (l : List String) (hnd : l.Nodup) (k : Nat) :
    l.filter (fun s => decide (s ∉ l.take k)) = l.drop k := by
  have h := filter_not_mem_append (l.take k) (l.drop k)
    (by rw [List.take_append_drop]; exact hnd)
  rw [List.take_append_drop] at h
  exact h

/-- Counterexample to C2 as stated: resume a run that used
`skip_validation = true` and failed at `convert`.  The resume re-runs
`validate` and appends it after `snapshot` and `export`, so the reached
`completed_stages` (concretely
`["snapshot", "export", "validate", "convert", ...]`) is not an
order-consistent subsequence of the registry. -/
theorem completed_order_counterexample :
    ¬ resumedCompletedC2.Sublist STAGES := by decide

/-- C2 amended: during `run` the invariant holds for every plan and every
persisted point; during `resume` it holds provided the loaded
`completed_stages` is a registry *prefix* (as it is after a failed run that
did not skip validation) — not for arbitrary registry-order subsets such as
the persisted state of a skip-validation run. -/
theorem completed_stages_order_amended :
    (∀ (exec : StageExec) (plan : VMMigrationPlan) (mid : String),
      ∀ st2 ∈ (runPipeline exec plan mid).finalState ::
          (runPipeline exec plan mid).saved,
        st2.completedStages.Sublist STAGES ∧ st2.completedStages.Nodup) ∧
    (∀ (exec : StageExec) (load : String → Option MigrationState)
        (mid : String) (st : MigrationState) (k : Nat),
      load mid = some st → st.completedStages = STAGES.take k →
      ∀ st2 ∈ resumeStates (resumePipeline exec load mid),
        st2.completedStages.Sublist STAGES ∧ st2.completedStages.Nodup) := by
  have hnd : STAGES.Nodup := by decide
  constructor
  · intro exec plan mid st2 hmem
    have hbase : (((initialState mid plan).completedStages ++
        stagesToRun plan)).Sublist STAGES := by
      simp only [initialState, List.nil_append]
      unfold stagesToRun
      split
      · exact List.filter_sublist STAGES
      · exact List.Sublist.refl STAGES
    have hloop := execLoop_completed_sublist exec STAGES (stagesToRun plan)
      (initialState mid plan) hbase
    have hsub : st2.completedStages.Sublist STAGES := by
      simp only [runPipeline, List.mem_cons] at hmem
      rcases hmem with rfl | rfl | hmem
      · exact hloop.1
      · exact List.nil_sublist STAGES
      · exact hloop.2 st2 hmem
    exact ⟨hsub, hsub.nodup hnd⟩
  · intro exec load mid st k hload htake st2 hmem
    unfold resumePipeline at hmem
    rw [hload] at hmem
    simp only at hmem
    have hrem : STAGES.filter (fun s => decide (s ∉ st.completedStages)) =
        STAGES.drop k := by
      rw [htake]
      exact filter_not_mem_take STAGES hnd k
    rw [hrem] at hmem
    cases hdrop : STAGES.drop k with
    | nil =>
      rw [hdrop] at hmem
      simp only [resumeStates, List.mem_cons, List.not_mem_nil, or_false]
        at hmem
      rw [hmem, htake]
      exact ⟨List.take_sublist k STAGES, (List.take_sublist k STAGES).nodup hnd⟩
    | cons s0 rest =>
      rw [hdrop] at hmem
      have hfull : (st.completedStages ++ (s0 :: rest)).Sublist STAGES := by
        rw [htake, ← hdrop, List.take_append_drop]
      have hloop := execLoop_completed_sublist exec STAGES (s0 :: rest)
        { st with error := none } hfull
      simp only [resumeStates, List.mem_cons] at hmem
      have hsub : st2.completedStages.Sublist STAGES := by
        rcases hmem with rfl | hmem
        · exact hloop.1
        · exact hloop.2 st2 hmem
      exact ⟨hsub, hsub.nodup hnd⟩

/-- Witness for the amended C2: a concrete skip-validation run that failed
at `convert` keeps its completed list registry-ordered, and so does the
final state of resuming a no-skip run that failed at `export`. -/
theorem completed_stages_order_amended_witness :
    crashedStateC2.completedStages.Sublist STAGES ∧
    resumedFinalC1.completedStages.Sublist STAGES := by
  constructor
  · exact (completed_stages_order_amended.1 execFailConvert planSkipC2 "m1"
      crashedStateC2 (List.mem_cons_self _ _)).1
  · exact (completed_stages_order_amended.2 execAlwaysOk loadC1 "m1"
      stateC1 2 rfl (by decide) resumedFinalC1 (by decide)).1

/-! ## Association-list lemmas -/

theorem lookupA_upsert_self {β : Type} (l : List (String × β)) (k : String)
    (v : β) : lookupA (upsert l k v) k = some v := by
  induction l with
  | nil => simp [upsert, lookupA]
  | cons p rest ih =>
    obtain ⟨k1, v1⟩ := p
    by_cases h : k1 = k
    · simp [upsert, h, lookupA]
    · simp [upsert, h, lookupA, ih]

theorem lookupA_upsert_ne {β : Type} (l : List (String × β)) (k k2 : String)
    (v : β) (h : k2 ≠ k) : lookupA (upsert l k v) k2 = lookupA l k2 := by
  have hne : ¬ (k = k2) := fun he => h he.symm
  induction l with
  | nil => simp [upsert, lookupA, hne]
  | cons p rest ih =>
    obtain ⟨k1, v1⟩ := p
    by_cases h1 : k1 = k
    · subst h1
      simp [upsert, lookupA, hne]
    · simp only [upsert, if_neg h1, lookupA]
      by_cases h2 : k1 = k2
      · simp [h2]
      · simp [h2, ih]

/-! ## Stage-handler claims -/

/-- C10: `_stage_fix_network` is a pure no-op at the pipeline interface:
for every plan and state it performs no guest action and returns the state,
artifact bag included, exactly as it received it. -/
theorem fix_network_pure_noop (plan : VMMigrationPlan) (st : MigrationState) :
    stageFixNetwork plan st = (.ok st, []) :=
  rfl

/-- C7: a handler whose optional upstream artifact is absent no-ops:
`clean_tools` without `qcow2_paths` performs no destructive action and
returns the bag unchanged; `import_scw`, whose upload-keys artifact is
mandatory, raises when `s3_keys` is absent or empty (whatever ids the API
would return). -/
theorem optional_noop_mandatory_fatal :
    (∀ arts : Artifacts, lookupA arts "qcow2_paths" = none →
      stageCleanTools arts = (.ok arts, [])) ∧
    (∀ (snapId imgId : String) (arts : Artifacts),
      lookupA arts "s3_keys" = none ∨
        lookupA arts "s3_keys" = some (ArtVal.strList []) →
      ∃ msg, stageImportScw snapId imgId arts = .error msg) := by
  constructor
  · intro arts h
    unfold stageCleanTools getStrList
    rw [h]
  · intro snapId imgId arts h
    have hk : getStrList arts "s3_keys" = [] := by
      unfold getStrList
      rcases h with h | h <;> rw [h]
    unfold stageImportScw
    cases hb : lookupA arts "s3_bucket" with
    | none => exact ⟨_, rfl⟩
    | some v =>
      rw [hk]
      exact ⟨_, rfl⟩

/-- Witness for C7: on a bag holding only exported VMDKs, `clean_tools`
returns the bag untouched with no destructive action, and `import_scw` on a
bag with an empty `s3_keys` list does not succeed. -/
theorem optional_noop_mandatory_fatal_witness :
    stageCleanTools artsNoQcow = (.ok artsNoQcow, []) ∧
    (stageImportScw "snap-1" "img-1" artsNoKeys).isOk = false := by
  constructor
  · exact optional_noop_mandatory_fatal.1 artsNoQcow (by decide)
  · obtain ⟨msg, hm⟩ := optional_noop_mandatory_fatal.2 "snap-1" "img-1"
      artsNoKeys (Or.inr (by decide))
    rw [hm]
    rfl

/-- C9: after `_stage_convert` returns successfully, every path listed
under `vmdk_paths` is gone from disk, yet the `vmdk_paths` bag entry still
names those deleted paths, and the only bag key written is `qcow2_paths`
(set to the `.qcow2` siblings). -/
theorem convert_deletes_sources_keeps_artifact (fs : List String)
    (arts : Artifacts) :
    (∀ p ∈ getStrList arts "vmdk_paths", p ∉ (stageConvert fs arts).1) ∧
    lookupA (stageConvert fs arts).2 "vmdk_paths" =
      lookupA arts "vmdk_paths" ∧
    lookupA (stageConvert fs arts).2 "qcow2_paths" =
      some (ArtVal.strList ((getStrList arts "vmdk_paths").map
        (fun v => withSuffix v ".qcow2"))) ∧
    (∀ k, k ≠ "qcow2_paths" → lookupA (stageConvert fs arts).2 k = lookupA arts k) := by
  refine ⟨?_, ?_, ?_, ?_⟩
  · intro p hp hmem
    unfold stageConvert at hmem
    simp only [List.mem_filter] at hmem
    have h2 := hmem.2
    simp only [Bool.not_eq_true', List.contains_eq_any_beq, List.any_eq_false,
      beq_iff_eq] at h2
    exact h2 p hp rfl
  · exact lookupA_upsert_ne arts "qcow2_paths" "vmdk_paths" _ (by decide)
  · exact lookupA_upsert_self arts "qcow2_paths" _
  · intro k hk
    exact lookupA_upsert_ne arts "qcow2_paths" k _ hk

/-- Witness for C9: converting a two-disk bag removes both VMDKs from disk
while the bag still lists them, and adds only `qcow2_paths`. -/
theorem convert_deletes_sources_keeps_artifact_witness :
    ("/work/m1/disk1.vmdk" ∉
      (stageConvert ["/work/m1/disk1.vmdk", "/work/m1/disk2.vmdk"] artsTwoVmdks).1) ∧
    lookupA (stageConvert ["/work/m1/disk1.vmdk", "/work/m1/disk2.vmdk"]
        artsTwoVmdks).2 "vmdk_paths" = lookupA artsTwoVmdks "vmdk_paths" ∧
    lookupA (stageConvert ["/work/m1/disk1.vmdk", "/work/m1/disk2.vmdk"]
        artsTwoVmdks).2 "vm_info" = lookupA artsTwoVmdks "vm_info" := by
  have h := convert_deletes_sources_keeps_artifact
    ["/work/m1/disk1.vmdk", "/work/m1/disk2.vmdk"] artsTwoVmdks
  exact ⟨h.1 "/work/m1/disk1.vmdk" (by decide), h.2.1,
    h.2.2.2 "vm_info" (by decide)⟩

/-! ## Round-trip of the expandable-string encoding (C4) -/

theorem hexVal_hexDigitChar (n : Nat) (h : n < 16) :
    hexVal (hexDigitChar n) = some n := by
  interval_cases n <;> rfl

theorem parseBytes_renderBytes :
    ∀ (bs : List Nat), bs ≠ [] → (∀ b ∈ bs, b < 256) →
      parseBytes (renderBytes bs) = some bs
  | [], h, _ => absurd rfl h
  | [b], _, hlt => by
    have hb : b < 256 := hlt b (by simp)
    have h1 : b / 16 < 16 := by omega
    have h2 : b % 16 < 16 := by omega
    simp only [renderBytes, byteHexChars, parseBytes,
      hexVal_hexDigitChar _ h1, hexVal_hexDigitChar _ h2]
    have : b / 16 * 16 + b % 16 = b := by omega
    rw [this]
  | b :: b2 :: rest, _, hlt => by
    have hb : b < 256 := hlt b (by simp)
    have h1 : b / 16 < 16 := by omega
    have h2 : b % 16 < 16 := by omega
    have ih := parseBytes_renderBytes (b2 :: rest) (by simp)
      (fun x hx => hlt x (List.mem_cons_of_mem _ hx))
    simp only [renderBytes, byteHexChars, List.cons_append, List.nil_append,
      parseBytes, hexVal_hexDigitChar _ h1, hexVal_hexDigitChar _ h2, ih]
    have : b / 16 * 16 + b % 16 = b := by omega
    rw [this]
    rfl

theorem mem_concatAll {α : Type} (x : α) :
    ∀ (ls : List (List α)), x ∈ concatAll ls → ∃ l ∈ ls, x ∈ l := by
  intro ls
  induction ls with
  | nil => intro h; simp [concatAll] at h
  | cons l ls ih =>
    intro h
    rw [concatAll, List.mem_append] at h
    rcases h with h | h
    · exact ⟨l, List.mem_cons_self _ _, h⟩
    · obtain ⟨l2, hl2, hx⟩ := ih h
      exact ⟨l2, List.mem_cons_of_mem _ hl2, hx⟩

set_option maxRecDepth 4000 in
theorem utf16Units_lt (c : Nat) (h : ScalarValue c) :
    ∀ u ∈ utf16Units c, u < 65536 := by
  intro u hu
  obtain ⟨hA, _⟩ := h
  unfold utf16Units at hu
  by_cases h1 : c < 65536
  · rw [if_pos h1] at hu
    simp only [List.mem_singleton] at hu
    omega
  · rw [if_neg h1] at hu
    simp only [List.mem_cons, List.mem_singleton, List.not_mem_nil, or_false]
      at hu
    rcases hu with h2 | h2 <;> omega

theorem utf16Of_lt (s : List Nat) (h : ∀ c ∈ s, ScalarValue c) :
    ∀ u ∈ utf16Of s, u < 65536 := by
  intro u hu
  obtain ⟨l, hl, hul⟩ := mem_concatAll u _ hu
  obtain ⟨c, hc, rfl⟩ := List.mem_map.mp hl
  exact utf16Units_lt c (h c hc) u hul

theorem utf16leBytes_lt (s : List Nat) (h : ∀ c ∈ s, ScalarValue c) :
    ∀ b ∈ utf16leBytes s, b < 256 := by
  intro b hb
  obtain ⟨l, hl, hbl⟩ := mem_concatAll b _ hb
  obtain ⟨u, hu, rfl⟩ := List.mem_map.mp hl
  have hlt := utf16Of_lt s h u hu
  simp only [List.mem_cons, List.mem_singleton, List.not_mem_nil, or_false]
    at hbl
  rcases hbl with h2 | h2 <;> omega

theorem bytesToUnits_pairs :
    ∀ (us : List Nat), (∀ u ∈ us, u < 65536) →
      bytesToUnits (concatAll (us.map (fun u => [u % 256, u / 256]))) = some us
  | [], _ => rfl
  | u :: us, h => by
    have hu : u < 65536 := h u (by simp)
    have ih := bytesToUnits_pairs us
      (fun x hx => h x (List.mem_cons_of_mem _ hx))
    have e : bytesToUnits
        (concatAll (List.map (fun u => [u % 256, u / 256]) (u :: us))) =
        (bytesToUnits (concatAll (List.map (fun u => [u % 256, u / 256]) us))).map
          (fun vs => (u % 256 + 256 * (u / 256)) :: vs) := rfl
    rw [e, ih, Option.map_some']
    have : u % 256 + 256 * (u / 256) = u := by omega
    rw [this]

set_option maxRecDepth 4000 in
theorem utf16Decode_utf16Of :
    ∀ (s : List Nat), (∀ c ∈ s, ScalarValue c) →
      utf16Decode (utf16Of s) = some s
  | [], _ => rfl
  | c :: s, h => by
    have hc : ScalarValue c := h c (List.mem_cons_self _ _)
    have hs : ∀ x ∈ s, ScalarValue x :=
      fun x hx => h x (List.mem_cons_of_mem _ hx)
    have ih := utf16Decode_utf16Of s hs
    unfold utf16Of at ih ⊢
    simp only [List.map_cons, concatAll]
    by_cases h1 : c < 65536
    · rw [utf16Units, if_pos h1]
      simp only [List.cons_append, List.nil_append]
      rw [utf16Decode.eq_def]
      simp only
      rw [if_pos hc.2, ih, Option.map_some']
    · rw [utf16Units, if_neg h1]
      obtain ⟨hA, hB⟩ := hc
      have hd : (c - 65536) / 1024 < 1024 := by omega
      have hm : (c - 65536) % 1024 < 1024 := by omega
      have hu1a : ¬ (0xD800 + (c - 0x10000) / 0x400 < 0xD800 ∨
          0xE000 ≤ 0xD800 + (c - 0x10000) / 0x400) := by omega
      have hu1b : 0xD800 + (c - 0x10000) / 0x400 < 0xDC00 := by omega
      have hu2 : 0xDC00 ≤ 0xDC00 + (c - 0x10000) % 0x400 ∧
          0xDC00 + (c - 0x10000) % 0x400 < 0xE000 := by omega
      simp only [List.cons_append, List.nil_append]
      rw [utf16Decode.eq_def]
      simp only
      rw [if_neg hu1a, if_pos hu1b, if_pos hu2, ih, Option.map_some']
      have he : 0x10000 + (0xD800 + (c - 0x10000) / 0x400 - 0xD800) * 0x400 +
          (0xDC00 + (c - 0x10000) % 0x400 - 0xDC00) = c := by omega
      rw [he]

theorem dropTag_append (p t : List Char) : dropTag p (p ++ t) = some t := by
  induction p with
  | nil => rfl
  | cons c cs ih => simp [dropTag, ih]

theorem stripNullTerminator_append (l : List Nat) :
    stripNullTerminator (l ++ [0, 0]) = some l := by
  have e1 : l ++ [0, 0] = (l ++ [0]) ++ [0] := by simp
  unfold stripNullTerminator
  rw [if_neg (by simp)]
  rw [if_pos ?side]
  case side =>
    constructor
    · rw [e1, List.getLast?_concat]
    · rw [e1, List.dropLast_concat, List.getLast?_concat]
  rw [e1, List.dropLast_concat, List.dropLast_concat]

/-- C4: encoding any Unicode text — the empty one included — as an
expandable-string registry value with `_str_to_reg_expand_sz` and decoding
the tagged hex byte sequence back (strip the terminator, decode UTF-16-LE)
yields the original text. -/
theorem reg_expand_sz_roundtrip (s : List Nat) (h : ∀ c ∈ s, ScalarValue c) :
    regExpandSzDecode (strToRegExpandSz s) = some s := by
  have hbytes : ∀ b ∈ utf16leBytes s ++ [0, 0], b < 256 := by
    intro b hb
    rw [List.mem_append] at hb
    rcases hb with hb | hb
    · exact utf16leBytes_lt s h b hb
    · simp only [List.mem_cons, List.mem_singleton, List.not_mem_nil,
        or_false] at hb
      rcases hb with rfl | rfl <;> omega
  have h1 : dropTag "hex(2):".data
      (String.mk ("hex(2):".data ++
        renderBytes (utf16leBytes s ++ [0, 0]))).data =
      some (renderBytes (utf16leBytes s ++ [0, 0])) :=
    dropTag_append _ _
  unfold regExpandSzDecode strToRegExpandSz
  rw [h1, Option.some_bind]
  rw [parseBytes_renderBytes (utf16leBytes s ++ [0, 0]) (by simp) hbytes,
    Option.some_bind]
  rw [stripNullTerminator_append, Option.some_bind]
  rw [show utf16leBytes s =
    concatAll ((utf16Of s).map (fun u => [u % 256, u / 256])) from rfl]
  rw [bytesToUnits_pairs (utf16Of s) (utf16Of_lt s h), Option.some_bind]
  exact utf16Decode_utf16Of s h

/-- Witness for C4: the round trip at the empty text and at a text mixing
an ASCII letter, an astral-plane character (U+10348, a surrogate pair) and
an embedded NUL. -/
theorem reg_expand_sz_roundtrip_witness :
    regExpandSzDecode (strToRegExpandSz []) = some [] ∧
    regExpandSzDecode (strToRegExpandSz [72, 66376, 0]) =
      some [72, 66376, 0] := by
  constructor
  · exact reg_expand_sz_roundtrip [] (by decide)
  · exact reg_expand_sz_roundtrip [72, 66376, 0] (by decide)

/-! ## The merge fallback chain (C5) -/

theorem section_mem_attempts (sections : List String) (p : Nat × String)
    (hp : p ∈ sections.enum) (hv : sectionValid p.2 = true) :
    MergeAction.sectionHivexMerge p.1 ∈
      (sections.enum.filter (fun q => sectionValid q.2)).map
        (fun q => MergeAction.sectionHivexMerge q.1) :=
  List.mem_map_of_mem _ (List.mem_filter.mpr ⟨hp, hv⟩)

/-- C5: the registry merge tries the hive-merge tool (`virt-win-reg`)
first and stops there on success; on failure it falls back to the
lower-level hive editor as a bulk merge; if the bulk merge fails it splits
the patch and attempts every key section independently, and the individual
section outcomes are only logged — they never change the result; a raise
reaches the caller only once this chain is exhausted: `virt-win-reg` must
have failed and either the hive download failed (leaving both hive-editor
strategies unattemptable) or the final hive upload failed after the
prescribed merge attempts had all run — a raise never skips a merge
strategy the chain still prescribed. -/
theorem merge_reg_fallback_chain (o : MergeOutcomes) (sections : List String) :
    ((mergeRegFile o sections).2.head? = some MergeAction.virtWinRegMerge) ∧
    (o.virtWinRegOk = true →
      mergeRegFile o sections = (.ok (), [MergeAction.virtWinRegMerge])) ∧
    (o.virtWinRegOk = false → o.downloadOk = true →
      MergeAction.bulkHivexMerge ∈ (mergeRegFile o sections).2) ∧
    (o.virtWinRegOk = false → o.downloadOk = true → o.bulkOk = false →
      ∀ p ∈ sections.enum, sectionValid p.2 = true →
        MergeAction.sectionHivexMerge p.1 ∈ (mergeRegFile o sections).2) ∧
    (∀ f, mergeRegFile { o with sectionOk := f } sections =
      mergeRegFile o sections) ∧
    (∀ msg, (mergeRegFile o sections).1 = .error msg →
      o.virtWinRegOk = false ∧
      (o.downloadOk = false ∨
        (o.uploadOk = false ∧
         MergeAction.bulkHivexMerge ∈ (mergeRegFile o sections).2 ∧
         (o.bulkOk = false →
           ∀ p ∈ sections.enum, sectionValid p.2 = true →
             MergeAction.sectionHivexMerge p.1 ∈
               (mergeRegFile o sections).2)))) := by
  obtain ⟨vw, dl, bulk, so, up⟩ := o
  refine ⟨?_, ?_, ?_, ?_, fun f => rfl, ?_⟩
  · cases vw <;> cases dl <;> cases bulk <;> cases up <;>
      simp [mergeRegFile]
  · intro hvw
    subst hvw
    rfl
  · intro hvw hdl
    subst hvw; subst hdl
    cases bulk <;> cases up <;> simp [mergeRegFile]
  · intro hvw hdl hbulk p hp hv
    subst hvw; subst hdl; subst hbulk
    have hmem := section_mem_attempts sections p hp hv
    cases up <;>
      simp only [mergeRegFile, Bool.not_true, Bool.false_eq_true, if_false,
        Bool.not_false, if_true, List.mem_append, List.mem_cons] <;>
      tauto
  · intro msg herr
    cases vw
    · refine ⟨rfl, ?_⟩
      cases dl
      · exact Or.inl rfl
      · refine Or.inr ?_
        cases up
        · refine ⟨rfl, ?_, ?_⟩
          · cases bulk <;> simp [mergeRegFile]
          · intro hbulk p hp hv
            subst hbulk
            have hmem := section_mem_attempts sections p hp hv
            simp only [mergeRegFile, Bool.not_true, Bool.false_eq_true,
              if_false, Bool.not_false, if_true, List.mem_append,
              List.mem_cons]
            tauto
        · exfalso
          cases bulk <;> simp [mergeRegFile] at herr
    · exfalso
      simp [mergeRegFile] at herr

/-! ## Key-level lemmas for the guest store (C6) -/

theorem lookupA_isSome_iff_mem_keys {β : Type} (l : List (String × β))
    (k : String) : (lookupA l k).isSome = true ↔ k ∈ l.map Prod.fst := by
  induction l with
  | nil => simp [lookupA]
  | cons p rest ih =>
    obtain ⟨k1, v1⟩ := p
    by_cases h : k1 = k
    · subst h
      simp [lookupA]
    · simp only [lookupA, if_neg h, List.map_cons, List.mem_cons, ih]
      constructor
      · exact fun hm => Or.inr hm
      · rintro (hm | hm)
        · exact absurd hm.symm h
        · exact hm

theorem keys_upsert {β : Type} (l : List (String × β)) (k : String) (v : β) :
    (upsert l k v).map Prod.fst =
      if k ∈ l.map Prod.fst then l.map Prod.fst
      else l.map Prod.fst ++ [k] := by
  induction l with
  | nil => simp [upsert]
  | cons p rest ih =>
    obtain ⟨k1, v1⟩ := p
    by_cases h : k1 = k
    · subst h
      simp [upsert]
    · simp only [upsert, if_neg h, List.map_cons, ih]
      by_cases h2 : k ∈ rest.map Prod.fst
      · rw [if_pos h2, if_pos (List.mem_cons_of_mem _ h2)]
      · rw [if_neg h2, if_neg ?hnot, List.cons_append]
        case hnot =>
          intro hmem
          rcases List.mem_cons.mp hmem with he | he
          · exact h he.symm
          · exact h2 he

theorem keys_upsert_nodup {β : Type} (l : List (String × β)) (k : String)
    (v : β) (hnd : (l.map Prod.fst).Nodup) :
    ((upsert l k v).map Prod.fst).Nodup := by
  rw [keys_upsert]
  split
  · exact hnd
  · next h =>
    rw [List.nodup_append]
    exact ⟨hnd, List.nodup_singleton _,
      fun x hx hx2 => h (by rwa [List.mem_singleton.mp hx2] at hx)⟩

theorem mem_keys_upsert_self {β : Type} (l : List (String × β)) (k : String)
    (v : β) : k ∈ (upsert l k v).map Prod.fst := by
  rw [keys_upsert]
  split
  · next h => exact h
  · exact List.mem_append_right _ (List.mem_singleton_self _)

theorem mem_keys_upsert_of_mem {β : Type} (l : List (String × β))
    (k k2 : String) (v : β) (h : k2 ∈ l.map Prod.fst) :
    k2 ∈ (upsert l k v).map Prod.fst := by
  rw [keys_upsert]
  split
  · exact h
  · exact List.mem_append_left _ h

theorem lookupA_isSome_upsert {β : Type} (l : List (String × β))
    (k k2 : String) (v : β) (h : (lookupA l k2).isSome = true) :
    (lookupA (upsert l k v) k2).isSome = true := by
  rw [lookupA_isSome_iff_mem_keys] at h ⊢
  exact mem_keys_upsert_of_mem l k k2 v h

theorem writeAll_nodup {β : Type} :
    ∀ (ws : List (String × β)) (l : List (String × β)),
      (l.map Prod.fst).Nodup → ((writeAll l ws).map Prod.fst).Nodup
  | [], l, h => h
  | w :: ws, l, h =>
    writeAll_nodup ws (upsert l w.1 w.2) (keys_upsert_nodup l w.1 w.2 h)

theorem lookupA_isSome_writeAll {β : Type} :
    ∀ (ws : List (String × β)) (l : List (String × β)) (k : String),
      (lookupA l k).isSome = true → (lookupA (writeAll l ws) k).isSome = true
  | [], _, _, h => h
  | w :: ws, l, k, h =>
    lookupA_isSome_writeAll ws (upsert l w.1 w.2) k
      (lookupA_isSome_upsert l w.1 k w.2 h)

theorem lookupA_isSome_writeAll_of_write {β : Type} :
    ∀ (ws : List (String × β)) (l : List (String × β)) (k : String),
      k ∈ ws.map Prod.fst → (lookupA (writeAll l ws) k).isSome = true := by
  intro ws
  induction ws with
  | nil => intro l k h; simp at h
  | cons w ws ih =>
    intro l k h
    rcases List.mem_cons.mp h with he | hm
    · subst he
      exact lookupA_isSome_writeAll ws (upsert l w.1 w.2) w.1
        (by rw [lookupA_isSome_iff_mem_keys]
            exact mem_keys_upsert_self l w.1 w.2)
    · exact ih (upsert l w.1 w.2) k hm

theorem keys_applySection (h : Hive) (sec : String × RegValues) :
    (applySection h sec).map Prod.fst =
      if sec.1 ∈ h.map Prod.fst then h.map Prod.fst
      else h.map Prod.fst ++ [sec.1] := by
  unfold applySection
  cases lookupA h sec.1 <;> rw [keys_upsert]

theorem applySection_nodup (h : Hive) (sec : String × RegValues)
    (hnd : (h.map Prod.fst).Nodup) :
    ((applySection h sec).map Prod.fst).Nodup := by
  rw [keys_applySection]
  split
  · exact hnd
  · next hmem =>
    rw [List.nodup_append]
    exact ⟨hnd, List.nodup_singleton _,
      fun x hx hx2 => hmem (by rwa [List.mem_singleton.mp hx2] at hx)⟩

theorem mem_keys_applySection_of_mem (h : Hive) (sec : String × RegValues)
    (k : String) (hk : k ∈ h.map Prod.fst) :
    k ∈ (applySection h sec).map Prod.fst := by
  rw [keys_applySection]
  split
  · exact hk
  · exact List.mem_append_left _ hk

theorem mem_keys_applySection_self (h : Hive) (sec : String × RegValues) :
    sec.1 ∈ (applySection h sec).map Prod.fst := by
  rw [keys_applySection]
  split
  · next hmem => exact hmem
  · exact List.mem_append_right _ (List.mem_singleton_self _)

theorem applySections_nodup :
    ∀ (secs : List (String × RegValues)) (h : Hive),
      (h.map Prod.fst).Nodup → ((applySections h secs).map Prod.fst).Nodup
  | [], _, hnd => hnd
  | sec :: secs, h, hnd =>
    applySections_nodup secs (applySection h sec) (applySection_nodup h sec hnd)

theorem mem_keys_applySections_of_mem :
    ∀ (secs : List (String × RegValues)) (h : Hive) (k : String),
      k ∈ h.map Prod.fst → k ∈ (applySections h secs).map Prod.fst
  | [], _, _, hk => hk
  | sec :: secs, h, k, hk =>
    mem_keys_applySections_of_mem secs (applySection h sec) k
      (mem_keys_applySection_of_mem h sec k hk)

theorem mem_keys_applySections_of_sec :
    ∀ (secs : List (String × RegValues)) (h : Hive) (k : String),
      k ∈ secs.map Prod.fst → k ∈ (applySections h secs).map Prod.fst := by
  intro secs
  induction secs with
  | nil => intro h k hk; simp at hk
  | cons sec secs ih =>
    intro h k hk
    rcases List.mem_cons.mp hk with he | hm
    · subst he
      exact mem_keys_applySections_of_mem secs (applySection h sec) _
        (mem_keys_applySection_self h sec)
    · exact ih (applySection h sec) k hm

theorem countKey_eq_one {β : Type} (l : List (String × β)) (k : String)
    (hnd : (l.map Prod.fst).Nodup) (hmem : k ∈ l.map Prod.fst) :
    countKey l k = 1 :=
  List.count_eq_one_of_mem hnd hmem

theorem mem_concatAll_of_mem {α : Type} (x : α) :
    ∀ (ls : List (List α)) (l : List α), l ∈ ls → x ∈ l → x ∈ concatAll ls := by
  intro ls
  induction ls with
  | nil => intro l hl; simp at hl
  | cons l0 ls ih =>
    intro l hl hx
    rw [concatAll, List.mem_append]
    rcases List.mem_cons.mp hl with he | hm
    · exact Or.inl (he ▸ hx)
    · exact Or.inr (ih l hm hx)

theorem serviceKey_mem_sections (names : List String) (d : String)
    (hd : d ∈ names) (ddef : DriverDef)
    (hlook : lookupA DRIVER_DEFS d = some ddef) :
    serviceKey d ∈ (buildDriverRegSections names).map Prod.fst := by
  have hsort : d ∈ List.insertionSort (fun a b => a ≤ b) names :=
    (List.perm_insertionSort _ names).mem_iff.mpr hd
  have hfd := List.mem_map_of_mem (fun drv =>
      match lookupA DRIVER_DEFS drv with
      | some d2 => driverSections drv d2
      | none => []) hsort
  simp only [hlook] at hfd
  have hmem : (serviceKey d, serviceValues ddef) ∈ buildDriverRegSections names :=
    mem_concatAll_of_mem _ _ _ hfd (by simp [driverSections])
  exact List.mem_map_of_mem Prod.fst hmem

/-! ## The guest mutation engine through one run (C6 helpers) -/

theorem ensureAll_files_nodup (extracted : List (String × List String))
    (guids : List String) (g : Guest)
    (hf : (g.files.map Prod.fst).Nodup) :
    (((ensureAllVirtioDrivers extracted guids g).files).map Prod.fst).Nodup := by
  unfold ensureAllVirtioDrivers
  exact keys_upsert_nodup _ _ _
    (writeAll_nodup _ _ (writeAll_nodup _ _ hf))

theorem ensureAll_hive_nodup (extracted : List (String × List String))
    (guids : List String) (g : Guest)
    (hh : (g.hive.map Prod.fst).Nodup) :
    (((ensureAllVirtioDrivers extracted guids g).hive).map Prod.fst).Nodup := by
  unfold ensureAllVirtioDrivers
  exact applySections_nodup _ _ (applySections_nodup _ _ hh)

theorem ensureAll_sys_present (extracted : List (String × List String))
    (guids : List String) (g : Guest)
    (hext : ∀ d ∈ DRIVER_DEFS.map Prod.fst, (lookupA extracted d).isSome = true)
    (d : String) (hd : d ∈ DRIVER_DEFS.map Prod.fst) :
    (lookupA (ensureAllVirtioDrivers extracted guids g).files
      (sysPath d)).isSome = true := by
  unfold ensureAllVirtioDrivers
  by_cases hpres : (lookupA g.files (sysPath d)).isSome = true
  · exact lookupA_isSome_upsert _ _ _ _
      (lookupA_isSome_writeAll _ _ _ (lookupA_isSome_writeAll _ _ _ hpres))
  · have hmiss : d ∈ (DRIVER_DEFS.map Prod.fst).filter
        (fun d2 => decide (d2 ∉ checkExistingDrivers g)) := by
      refine List.mem_filter.mpr ⟨hd, ?_⟩
      simp only [decide_eq_true_eq]
      intro hin
      exact hpres (List.mem_filter.mp hin).2
    have hup : d ∈ ((DRIVER_DEFS.map Prod.fst).filter
        (fun d2 => decide (d2 ∉ checkExistingDrivers g))).filter
        (fun d2 => (lookupA extracted d2).isSome) :=
      List.mem_filter.mpr ⟨hmiss, hext d hd⟩
    have hkey : sysPath d ∈ ((((DRIVER_DEFS.map Prod.fst).filter
        (fun d2 => decide (d2 ∉ checkExistingDrivers g))).filter
          (fun d2 => (lookupA extracted d2).isSome)).map
            (fun d2 => (sysPath d2, FileContent.sysFile d2))).map Prod.fst := by
      rw [List.map_map]
      exact List.mem_map_of_mem _ hup
    exact lookupA_isSome_upsert _ _ _ _
      (lookupA_isSome_writeAll _ _ _
        (lookupA_isSome_writeAll_of_write _ _ _ hkey))

/-- C6: running the guest image mutation engine twice in a row on the same
image yields a configuration store with exactly one service entry per
catalogue driver — re-registration overwrites the entry keyed by that
service name rather than appending a duplicate — and exactly one firstboot
script file, at the single fixed deterministic path, the second injection
replacing the first.  Hypotheses: the initial guest store is a well-formed
dict (duplicate-free keys) and the ISO yields every catalogue driver. -/
theorem ensure_virtio_idempotent (extracted : List (String × List String))
    (guids : List String) (g : Guest)
    (hf : (g.files.map Prod.fst).Nodup) (hh : (g.hive.map Prod.fst).Nodup)
    (hext : ∀ d ∈ DRIVER_DEFS.map Prod.fst,
      (lookupA extracted d).isSome = true) :
    (∀ d ∈ DRIVER_DEFS.map Prod.fst,
      countKey (ensureAllVirtioDrivers extracted guids
        (ensureAllVirtioDrivers extracted guids g)).hive (serviceKey d) = 1) ∧
    countKey (ensureAllVirtioDrivers extracted guids
      (ensureAllVirtioDrivers extracted guids g)).files firstbootPath = 1 := by
  set g1 : Guest := ensureAllVirtioDrivers extracted guids g with hg1
  have hf1 : (g1.files.map Prod.fst).Nodup := by
    rw [hg1]
    exact ensureAll_files_nodup extracted guids g hf
  have hh1 : (g1.hive.map Prod.fst).Nodup := by
    rw [hg1]
    exact ensureAll_hive_nodup extracted guids g hh
  constructor
  · intro d hd
    have hsys : (lookupA g1.files (sysPath d)).isSome = true := by
      rw [hg1]
      exact ensureAll_sys_present extracted guids g hext d hd
    obtain ⟨ddef, hlook⟩ := Option.isSome_iff_exists.mp
      ((lookupA_isSome_iff_mem_keys DRIVER_DEFS d).mpr hd)
    have hkeys : serviceKey d ∈
        ((ensureAllVirtioDrivers extracted guids g1).hive).map Prod.fst := by
      unfold ensureAllVirtioDrivers
      exact mem_keys_applySections_of_mem _ _ _
        (mem_keys_applySections_of_sec _ _ _
          (serviceKey_mem_sections _ d
            (List.mem_append_left _ (List.mem_filter.mpr ⟨hd, hsys⟩))
            ddef hlook))
    exact countKey_eq_one _ _ (ensureAll_hive_nodup extracted guids g1 hh1)
      hkeys
  · have hkeys : firstbootPath ∈
        ((ensureAllVirtioDrivers extracted guids g1).files).map Prod.fst := by
      unfold ensureAllVirtioDrivers
      exact mem_keys_upsert_self _ _ _
    exact countKey_eq_one _ _ (ensureAll_files_nodup extracted guids g1 hf1)
      hkeys

/-- Witness for C6: double-running the engine on a fresh guest with all
three drivers extracted leaves one `netkvm` service entry and one
firstboot script. -/
theorem ensure_virtio_idempotent_witness :
    countKey (ensureAllVirtioDrivers extractedW ["\x7bguid-1\x7d"]
      (ensureAllVirtioDrivers extractedW ["\x7bguid-1\x7d"] guestW)).hive
        (serviceKey "netkvm") = 1 ∧
    countKey (ensureAllVirtioDrivers extractedW ["\x7bguid-1\x7d"]
      (ensureAllVirtioDrivers extractedW ["\x7bguid-1\x7d"] guestW)).files
        firstbootPath = 1 := by
  have h := ensure_virtio_idempotent extractedW ["\x7bguid-1\x7d"] guestW
    (by decide) (by decide) (by decide)
  exact ⟨h.1 "netkvm" (by decide), h.2⟩

/-- Witness for C5: with `virt-win-reg` failing, the hive available, the
bulk merge failing and section 1 of the split failing, the merge still
starts with `virt-win-reg`, attempts the bulk merge, and attempts the
section unit after the failed one. -/
theorem merge_reg_fallback_chain_witness :
    (mergeRegFile mergeOutcomesW mergeSectionsW).2.head? =
      some MergeAction.virtWinRegMerge ∧
    MergeAction.bulkHivexMerge ∈ (mergeRegFile mergeOutcomesW mergeSectionsW).2 ∧
    MergeAction.sectionHivexMerge 2 ∈
      (mergeRegFile mergeOutcomesW mergeSectionsW).2 := by
  have h := merge_reg_fallback_chain mergeOutcomesW mergeSectionsW
  refine ⟨h.1, h.2.2.1 rfl rfl, ?_⟩
  exact h.2.2.2.1 rfl rfl rfl
    (2, "[HKEY_LOCAL_MACHINE\\SYSTEM\\ControlSet001\\Services\\viostor\\Parameters]")
    (by decide) (by decide)

end Vmware2Scw
